import Mathlib

/-!
Verification development for the mm-agent core subsystem: the tool-execution
loop (`executeAgentWithTools` in src/core/orchestrator.ts), the event bus
(`EventEmitter.emit` in src/core/event-emitter.ts), the metrics store session
operations (`AnalyticsEngine.recordSessionStart` / `recordSessionEnd` in
src/core/analytics.ts) and the configuration accessor
(`AgentOrchestrator.getConfig`).

Modelling conventions:
- Strings stand for JSON payloads; `JSON.stringify` of a tool result is kept
  abstract as the string the tool produced.
- A tool implementation is `String → Except String String`: `.error` models a
  thrown exception, `.ok` a returned value.
- The reasoning service (`claudeClient.messages.create`) is a deterministic
  oracle `List Message → Except String (List ContentBlock)`; `.error` models a
  rejected promise (network/service failure).
- The `Promise.all` fan-out over one turn's tool requests is serialised in
  request order.  `Promise.all` preserves result order, and each request's own
  event sequence (start before terminal) is per-request, so every property
  claimed here is insensitive to the interleaving.
- Event timestamps (`Date.now()`) are dropped; event order is trace order.
- The while-loop is embedded with a fuel parameter; `LoopExit.fuelOut` marks
  fuel exhaustion, and `runLoop_fuel_sufficient` proves the canonical fuel of
  `executeAgentWithTools` never reaches it, so the embedding is total exactly
  as the source loop is.
-/

namespace MMAgent

/-- A `tool_use` content block of a reasoning-service response
(`ToolUseBlock` from the SDK): unique id, tool name, structured input. -/
structure ToolUseBlock where
  id : String
  name : String
  input : String
  deriving DecidableEq, Repr

/-- One content block of a reasoning-service response: plain text or a
tool-invocation request. -/
inductive ContentBlock where
  | text (s : String)
  | toolUse (b : ToolUseBlock)
  deriving DecidableEq, Repr

/-- A `tool_result` block built by the loop (orchestrator.ts lines 462-528). -/
structure ToolResultBlock where
  tool_use_id : String
  content : String
  is_error : Bool
  deriving DecidableEq, Repr

/-- Content of one conversation message: the initial user input is a plain
string, an assistant message carries the response content blocks, and the
follow-up user message carries the tool results. -/
inductive MessageContent where
  | text (s : String)
  | blocks (bs : List ContentBlock)
  | results (rs : List ToolResultBlock)
  deriving DecidableEq, Repr

/-- One conversation message (`MessageParam`): role and content. -/
structure Message where
  role : String
  content : MessageContent
  deriving DecidableEq, Repr

/-- A tool implementation from an agent's catalog: `execute` models the
`tool.execute(input)` call, `.error` a thrown exception. -/
structure Tool where
  name : String
  execute : String → Except String String

/-- An agent as the loop sees it: its tool catalog (`agent.tools`). -/
structure Agent where
  tools : List Tool

/-- Events published on the event bus by `executeAgentWithTools`.
Timestamps and payload details irrelevant to the claims are dropped;
`sessionEnd` keeps the aggregate counts of orchestrator.ts lines 556-567. -/
inductive Event where
  | sessionStart (sessionId agentKey : String)
  | toolStart (sessionId agentKey toolName : String)
  | toolComplete (sessionId agentKey toolName : String)
  | toolError (sessionId agentKey toolName errMsg : String)
  | sessionEnd (sessionId agentKey : String)
      (totalTools successCount errorCount : Nat) (finalResult : Option String)
  deriving DecidableEq, Repr

/-- Is an event a `session_end` event? -/
def Event.isSessionEnd : Event → Bool
  | .sessionEnd _ _ _ _ _ _ => true
  | _ => false

/-- Is an event one of the three tool events? -/
def Event.isToolEvent : Event → Bool
  | .toolStart _ _ _ => true
  | .toolComplete _ _ _ => true
  | .toolError _ _ _ _ => true
  | _ => false

/-- The reasoning service as a deterministic oracle: from the accumulated
message list to either response content blocks or a thrown error. -/
def Service : Type := List Message → Except String (List ContentBlock)

/-- Partition step of orchestrator.ts lines 438-447: the tool-use blocks of a
response, in order. -/
def toolUseBlocksOf (content : List ContentBlock) : List ToolUseBlock :=
  content.filterMap fun c =>
    match c with
    | .toolUse b => some b
    | .text _ => none

/-- Partition step of orchestrator.ts lines 438-447: the concatenated text. -/
def textOf (content : List ContentBlock) : String :=
  content.foldl
    (fun acc c =>
      match c with
      | .text s => acc ++ s
      | .toolUse _ => acc)
    ""

/-- Dispatch of a single tool-invocation request (the body of the
`toolUseBlocks.map` at orchestrator.ts lines 459-530).  Returns the
`tool_result` block, the events emitted for this request, and the names
appended to `toolsUsed`. -/
def dispatchOne (agent : Agent) (sessionId agentKey : String)
    (tu : ToolUseBlock) : ToolResultBlock × List Event × List String :=
  match agent.tools.find? (fun t => t.name == tu.name) with
  | none =>
      (⟨tu.id, "Error: Tool " ++ tu.name ++ " not found", true⟩, [], [])
  | some tool =>
      match tool.execute tu.input with
      | .ok result =>
          (⟨tu.id, result, false⟩,
           [Event.toolStart sessionId agentKey tool.name,
            Event.toolComplete sessionId agentKey tool.name],
           [tool.name])
      | .error msg =>
          (⟨tu.id, "Error: " ++ msg, true⟩,
           [Event.toolStart sessionId agentKey tool.name,
            Event.toolError sessionId agentKey tool.name msg],
           [tool.name])

/-- Dispatch of one turn's whole batch of requests (the `Promise.all` at
orchestrator.ts lines 458-531), serialised in request order: the result
blocks in request order, the concatenated events, the `toolsUsed` additions. -/
def dispatchTurn (agent : Agent) (sessionId agentKey : String) :
    List ToolUseBlock → List ToolResultBlock × List Event × List String
  | [] => ([], [], [])
  | tu :: rest =>
      let r := dispatchOne agent sessionId agentKey tu
      let rs := dispatchTurn agent sessionId agentKey rest
      (r.1 :: rs.1, r.2.1 ++ rs.2.1, r.2.2 ++ rs.2.2)

/-- `AgentResponse` as returned by `executeAgentWithTools`: `result` is the
final text (`none` models the initial `null`), `error` the failure message. -/
structure AgentResponse where
  success : Bool
  result : Option String
  error : Option String
  toolsUsed : List String
  deriving DecidableEq, Repr

/-- How one run of the while-loop ended: a final text response
(`continueLoop = false` at line 453), the hard stop at line 537, a thrown
reasoning-service call (line 542), or model fuel exhaustion (no source
counterpart; proved unreachable at the canonical fuel). -/
inductive LoopExit where
  | completed
  | forced
  | svcError (msg : String)
  | fuelOut
  deriving DecidableEq, Repr

/-- The loop-local mutable state of `executeAgentWithTools`:
`context.messages`, `toolsUsed`, the events emitted so far, and (ghost, for
specification only) every tool-invocation request dispatched so far. -/
structure LoopState where
  messages : List Message
  toolsUsed : List String
  events : List Event
  requests : List ToolUseBlock
  deriving Repr

/-- The while-loop of orchestrator.ts lines 428-550, one fuel unit per
iteration.  Returns the final loop state, the final result
(`finalResult`, `none` until a text-only turn sets it), and the exit kind. -/
def runLoop (agent : Agent) (svc : Service) (sessionId agentKey : String) :
    Nat → LoopState → Option String → LoopState × Option String × LoopExit
  | 0, st, finalResult => (st, finalResult, LoopExit.fuelOut)
  | Nat.succ fuel, st, finalResult =>
      match svc st.messages with
      | .error e => (st, finalResult, LoopExit.svcError e)
      | .ok content =>
          let tus := toolUseBlocksOf content
          if tus.isEmpty then
            ({ st with
                messages := st.messages ++ [⟨"assistant", .blocks content⟩] },
             some (textOf content), LoopExit.completed)
          else
            let d := dispatchTurn agent sessionId agentKey tus
            let st1 : LoopState :=
              { messages := st.messages ++
                  [⟨"assistant", .blocks content⟩, ⟨"user", .results d.1⟩],
                toolsUsed := st.toolsUsed ++ d.2.2,
                events := st.events ++ d.2.1,
                requests := st.requests ++ tus }
            if st1.messages.length > 50 then
              (st1, finalResult, LoopExit.forced)
            else
              runLoop agent svc sessionId agentKey fuel st1 finalResult

/-- The long-lived per-session conversation context (`ConversationContext`). -/
structure ConversationContext where
  messages : List Message
  maxHistory : Option Nat
  deriving DecidableEq, Repr

/-- `trimConversationHistory` (orchestrator.ts lines 647-652):
`maxHistory || 20` (0 and absent are both falsy), then keep the last
`maxHistory` messages (`slice(-maxHistory)`). -/
def trimConversationHistory (c : ConversationContext) : ConversationContext :=
  let m :=
    match c.maxHistory with
    | some k => if k = 0 then 20 else k
    | none => 20
  if c.messages.length > m then
    { c with messages := c.messages.drop (c.messages.length - m) }
  else c

/-- The orchestrator state the claims touch: the agent registry and the
session registry (`conversationHistory`). -/
structure Orchestrator where
  agents : List (String × Agent)
  conversationHistory : List (String × ConversationContext)

/-- `getConversationContext` (orchestrator.ts lines 637-645): return the
stored context, creating an empty one with `maxHistory` 20 on first use. -/
def getConversationContext (orch : Orchestrator) (sessionId : String) :
    ConversationContext × Orchestrator :=
  match orch.conversationHistory.find? (fun p => p.1 == sessionId) with
  | some p => (p.2, orch)
  | none =>
      let c : ConversationContext := ⟨[], some 20⟩
      (c, { orch with
              conversationHistory :=
                orch.conversationHistory ++ [(sessionId, c)] })

/-- Everything observable about one `executeAgentWithTools` invocation: the
returned `AgentResponse`, the full event trace in emission order, the loop's
local conversation context after the final trim (`none` when the invocation
ended before reaching it), the loop exit kind (`none` when the agent lookup
failed), and (ghost) all dispatched requests. -/
structure RunOut where
  response : AgentResponse
  trace : List Event
  finalContext : Option ConversationContext
  exit : Option LoopExit
  requests : List ToolUseBlock
  deriving Repr

/-- Fuel for the canonical invocation; `runLoop_fuel_sufficient` shows 25
iterations already suffice from the initial one-message state. -/
def loopFuel : Nat := 26

/-- `executeAgentWithTools` (orchestrator.ts lines 392-575): agent lookup,
fresh local context seeded with the user input, `session_start`, the loop;
on a service error return the failure response with no `session_end`; else
trim the local context, publish `session_end` with
`totalTools = successCount = toolsUsed.length` and `errorCount = 0`
(lines 555-567), and return the success response.  The orchestrator state is
returned unchanged: the loop never writes to the session registry. -/
def executeAgentWithTools (orch : Orchestrator) (svc : Service)
    (agentKey input sessionId : String) : RunOut × Orchestrator :=
  match orch.agents.find? (fun p => p.1 == agentKey) with
  | none =>
      ({ response :=
           ⟨false, none, some ("Agent " ++ agentKey ++ " not found"), []⟩,
         trace := [], finalContext := none, exit := none, requests := [] },
       orch)
  | some pa =>
      let st0 : LoopState := ⟨[⟨"user", .text input⟩], [], [], []⟩
      let startEv := Event.sessionStart sessionId agentKey
      let r := runLoop pa.2 svc sessionId agentKey loopFuel st0 none
      match r.2.2 with
      | .svcError e =>
          ({ response := ⟨false, none, some e, r.1.toolsUsed⟩,
             trace := startEv :: r.1.events,
             finalContext := none,
             exit := some (LoopExit.svcError e),
             requests := r.1.requests }, orch)
      | .fuelOut =>
          ({ response := ⟨false, none, some "model fuel exhausted", r.1.toolsUsed⟩,
             trace := startEv :: r.1.events,
             finalContext := none,
             exit := some LoopExit.fuelOut,
             requests := r.1.requests }, orch)
      | tag =>
          ({ response := ⟨true, r.2.1, none, r.1.toolsUsed⟩,
             trace := startEv :: r.1.events ++
               [Event.sessionEnd sessionId agentKey
                 r.1.toolsUsed.length r.1.toolsUsed.length 0 r.2.1],
             finalContext :=
               some (trimConversationHistory ⟨r.1.messages, some 20⟩),
             exit := some tag,
             requests := r.1.requests }, orch)

/-! ### Event bus (src/core/event-emitter.ts) -/

/-- A subscribed handler: runs on the payload and either finishes, reporting
the side effects it performed, or throws with a message.  `α` is the payload
type (`data: any`). -/
def Handler (α : Type) : Type := α → Except String (List String)

/-- Outcome of one handler invocation inside `emit`: the `try`/`catch` at
event-emitter.ts lines 72-76 either completes the handler or swallows and
logs its error. -/
inductive HandlerOutcome where
  | done (acts : List String)
  | swallowed (err : String)
  deriving DecidableEq, Repr

/-- One catch-wrapped handler invocation (event-emitter.ts lines 71-77). -/
def attempt (h : Handler α) (d : α) : HandlerOutcome :=
  match h d with
  | .ok acts => HandlerOutcome.done acts
  | .error e => HandlerOutcome.swallowed e

/-- `EventEmitter` state: named handler lists plus wildcard handlers. -/
structure EmitterState (α : Type) where
  handlers : List (String × List (Handler α))
  wildCardHandlers : List (Handler α)

/-- The handlers `emit` runs, in order: the event's named handlers
(`this.handlers.get(event) || []`) then the wildcard handlers (line 68). -/
def handlersFor (st : EmitterState α) (event : String) : List (Handler α) :=
  (match st.handlers.find? (fun p => p.1 == event) with
   | some p => p.2
   | none => []) ++ st.wildCardHandlers

/-- `EventEmitter.emit` (event-emitter.ts lines 66-79): every matching named
handler plus every wildcard handler is invoked with the payload, each wrapped
in its own `try`/`catch`; `emit` itself never rejects, so its type has no
error case. -/
def emit (st : EmitterState α) (event : String) (d : α) :
    List HandlerOutcome :=
  (handlersFor st event).map (fun h => attempt h d)

/-! ### Metrics store session rows (src/core/analytics.ts)

The repository loads the table definitions from `data/schema.sql`, which is
not part of the provided sources; only §3 of the spec describes it. -/

/-- Modelled from the spec: one row of the `agent_sessions` table.  The
column list follows the INSERT/UPDATE statements of analytics.ts lines
103-127; per spec §3 (SessionRecord) `session_id` is unique, which is what
makes the source's INSERT OR IGNORE an insert-if-absent. -/
structure SessionRow where
  session_id : String
  agent_key : String
  started_at : Nat
  completed_at : Option Nat
  total_tools : Option Nat
  success_count : Option Nat
  error_count : Option Nat
  final_result : Option String
  deriving DecidableEq, Repr

/-- The `agent_sessions` table as a row list in insertion order. -/
abbrev SessionTable : Type := List SessionRow

/-- Does the table hold a row for this session id? -/
def hasSession (db : SessionTable) (sessionId : String) : Bool :=
  db.any (fun r => r.session_id == sessionId)

/-- Aggregate metrics passed to `recordSessionEnd` (`SessionMetrics`). -/
structure SessionMetrics where
  totalTools : Nat
  successCount : Nat
  errorCount : Nat
  finalResult : Option String
  deriving DecidableEq, Repr

/-- `recordSessionStart` (analytics.ts lines 103-110): INSERT OR IGNORE on
the unique `session_id` — a no-op when a row for the id exists, an insert of
a fresh open row otherwise.  Never raises. -/
def recordSessionStart (db : SessionTable) (sessionId agentKey : String)
    (now : Nat) : SessionTable :=
  if hasSession db sessionId then db
  else db ++ [⟨sessionId, agentKey, now, none, none, none, none, none⟩]

/-- `recordSessionEnd` (analytics.ts lines 112-127): UPDATE ... WHERE
`session_id` matches; rows with other ids are untouched, and an UPDATE that
matches no row is a no-op, not an error. -/
def recordSessionEnd (db : SessionTable) (sessionId : String)
    (m : SessionMetrics) (now : Nat) : SessionTable :=
  db.map fun r =>
    if r.session_id == sessionId then
      { r with
          completed_at := some now,
          total_tools := some m.totalTools,
          success_count := some m.successCount,
          error_count := some m.errorCount,
          final_result := m.finalResult }
    else r

/-- Invariant of the `agent_sessions` table: at most one row per session id. -/
def uniqueSessionIds (db : SessionTable) : Prop :=
  (db.map (fun r => r.session_id)).Nodup

/-! ### Configuration (src/core/orchestrator.ts lines 13-21, 670-673) -/

/-- `Required<OrchestratorConfig>`: the orchestrator's resolved
configuration.  The float `temperature` is modelled as a rational. -/
structure OrchestratorConfig where
  anthropicApiKey : String
  model : String
  maxTokens : Nat
  temperature : Rat
  enableLogging : Bool
  enableAnalytics : Bool
  analyticsDbPath : String
  deriving DecidableEq, Repr

/-- The value `getConfig` returns:
`Omit<Required<OrchestratorConfig>, 'anthropicApiKey'>` — the configuration
record with no API-key field at all. -/
structure SafeConfig where
  model : String
  maxTokens : Nat
  temperature : Rat
  enableLogging : Bool
  enableAnalytics : Bool
  analyticsDbPath : String
  deriving DecidableEq, Repr

/-- `getConfig` (orchestrator.ts lines 670-673): destructure
`anthropicApiKey` away and return the rest. -/
def getConfig (c : OrchestratorConfig) : SafeConfig :=
  ⟨c.model, c.maxTokens, c.temperature, c.enableLogging,
   c.enableAnalytics, c.analyticsDbPath⟩

/-! ### Helper lemmas about dispatch -/

/-- The result block built for a request always carries that request's id
(every branch of orchestrator.ts lines 462-528 sets `tool_use_id: toolUse.id`). -/
theorem dispatchOne_fst_id (agent : Agent) (sid ak : String)
    (tu : ToolUseBlock) :
    (dispatchOne agent sid ak tu).1.tool_use_id = tu.id := by
  unfold dispatchOne
  split
  · rfl
  · split <;> rfl

/-- The ids of a turn's result blocks are the ids of its requests, in order. -/
theorem dispatchTurn_map_id (agent : Agent) (sid ak : String)
    (tus : List ToolUseBlock) :
    (dispatchTurn agent sid ak tus).1.map (fun r => r.tool_use_id)
      = tus.map (fun tu => tu.id) := by
  induction tus with
  | nil => rfl
  | cons tu rest ih =>
      simp only [dispatchTurn, List.map_cons, dispatchOne_fst_id, ih]

/-- Claim C1: for every turn of `executeAgentWithTools` whose response
contains tool-invocation requests, the caller message appended after dispatch
(the result list of `dispatchTurn`, pushed at orchestrator.ts line 533)
contains exactly one `tool_result` per request id and no result whose id does
not come from a request of that turn: the result ids are exactly the request
ids in order, so for every id the number of matching results equals the
number of matching requests. -/
theorem claim_C1_result_ids_bijective (agent : Agent) (sid ak : String)
    (tus : List ToolUseBlock) :
    (dispatchTurn agent sid ak tus).1.map (fun r => r.tool_use_id)
      = tus.map (fun tu => tu.id)
    ∧ ∀ i : String,
        ((dispatchTurn agent sid ak tus).1.filter
            (fun r => r.tool_use_id == i)).length
          = (tus.filter (fun tu => tu.id == i)).length := by
  refine ⟨dispatchTurn_map_id agent sid ak tus, fun i => ?_⟩
  have key : ∀ (β : Type) (f : β → String) (l : List β),
      (l.filter (fun r => f r == i)).length
        = (l.map f).countP (fun x => x == i) := by
    intro β f l
    rw [List.countP_map, ← List.countP_eq_length_filter]
    rfl
  rw [key ToolResultBlock (fun r => r.tool_use_id),
      key ToolUseBlock (fun tu => tu.id),
      dispatchTurn_map_id agent sid ak tus]

/-- Claim C10: `getConfig` never exposes the API key.  Its return type
(`SafeConfig`) has no `anthropicApiKey` field, and two configurations that
differ only in `anthropicApiKey` yield identical `getConfig` results. -/
theorem claim_C10_getConfig_key_independent (c : OrchestratorConfig)
    (k : String) :
    getConfig { c with anthropicApiKey := k } = getConfig c := rfl

/-- Claim C8: `emit` attempts every registered handler (named plus wildcard)
on the payload; a handler that throws has its error swallowed into a logged
outcome, does not prevent any other handler from being attempted, and `emit`
itself returns normally (its type has no error case).  The second conjunct
places a throwing handler at an arbitrary position among the named handlers
and shows every other handler's outcome is still produced in order. -/
theorem claim_C8_emit_isolates_handlers {α : Type} (event : String)
    (before after wilds : List (Handler α)) (bad : Handler α) (d : α)
    (e : String) (hbad : bad d = Except.error e) :
    (∀ st : EmitterState α,
        (emit st event d).length = (handlersFor st event).length)
    ∧ emit ⟨[(event, before ++ bad :: after)], wilds⟩ event d
        = before.map (fun h => attempt h d)
          ++ HandlerOutcome.swallowed e
            :: (after ++ wilds).map (fun h => attempt h d) := by
  constructor
  · intro st
    simp [emit]
  · simp [emit, handlersFor, List.find?, attempt, hbad]

/-- Witness for C8 at concrete handlers: one healthy handler before, one
after, one wildcard, and a throwing handler in the middle. -/
theorem claim_C8_witness :
    emit (⟨[("ev", [fun _ => Except.ok ["a"],
                    fun _ => Except.error "x",
                    fun _ => Except.ok ["b"]])],
           [fun _ => Except.ok ["w"]]⟩ : EmitterState Nat) "ev" 0
      = [HandlerOutcome.done ["a"], HandlerOutcome.swallowed "x",
         HandlerOutcome.done ["b"], HandlerOutcome.done ["w"]] := by
  have h := (claim_C8_emit_isolates_handlers "ev"
      [fun _ => Except.ok ["a"]] [fun _ => Except.ok ["b"]]
      [fun _ => Except.ok ["w"]] (fun _ => Except.error "x") 0 "x" rfl).2
  simpa [attempt] using h

/-- Claim C9: the metrics store keeps at most one session row per id:
a second `recordSessionStart` for an existing id leaves the table unchanged
(and cannot raise, being a total function), `recordSessionEnd` for an absent
id is a no-op, and both operations preserve the at-most-one-row invariant. -/
theorem claim_C9_session_row_unique (db : SessionTable)
    (sessionId agentKey : String) (now now2 : Nat) (m : SessionMetrics) :
    (hasSession db sessionId = true →
      recordSessionStart db sessionId agentKey now = db)
    ∧ (hasSession db sessionId = false →
      recordSessionEnd db sessionId m now2 = db)
    ∧ (uniqueSessionIds db →
      uniqueSessionIds (recordSessionStart db sessionId agentKey now))
    ∧ (uniqueSessionIds db →
      uniqueSessionIds (recordSessionEnd db sessionId m now2)) := by
  refine ⟨fun h => ?_, fun h => ?_, fun h => ?_, fun h => ?_⟩
  · simp [recordSessionStart, h]
  · have habs : ∀ r ∈ db, (r.session_id == sessionId) = false := by
      intro r hr
      by_contra hc
      have : hasSession db sessionId = true := by
        simp only [hasSession, List.any_eq_true]
        exact ⟨r, hr, by simpa using hc⟩
      simp [this] at h
    unfold recordSessionEnd
    calc db.map _ = db.map id := by
          apply List.map_congr_left
          intro r hr
          simp [habs r hr]
      _ = db := List.map_id db
  · unfold recordSessionStart
    by_cases hc : hasSession db sessionId = true
    · rw [if_pos hc]; exact h
    · rw [if_neg hc]
      unfold uniqueSessionIds at h ⊢
      rw [List.map_append, List.map_singleton, List.nodup_append]
      refine ⟨h, List.nodup_singleton _, ?_⟩
      intro x hx hx2
      rw [List.mem_singleton] at hx2
      rw [List.mem_map] at hx
      obtain ⟨r, hr, hrid⟩ := hx
      apply hc
      simp only [hasSession, List.any_eq_true]
      exact ⟨r, hr, by simp [hrid, hx2]⟩
  · unfold uniqueSessionIds at h ⊢
    unfold recordSessionEnd
    rw [List.map_map]
    have : ((fun r : SessionRow => r.session_id) ∘ fun r =>
        if (r.session_id == sessionId) = true then
          { r with
              completed_at := some now2,
              total_tools := some m.totalTools,
              success_count := some m.successCount,
              error_count := some m.errorCount,
              final_result := m.finalResult }
        else r)
        = fun r : SessionRow => r.session_id := by
      funext r
      show (if (r.session_id == sessionId) = true then _ else r).session_id
        = r.session_id
      split <;> rfl
    rw [this]
    exact h

/-- Witness for C9 at a concrete two-row table. -/
theorem claim_C9_witness :
    recordSessionStart
        [⟨"s1", "a", 5, none, none, none, none, none⟩] "s1" "b" 9
      = [⟨"s1", "a", 5, none, none, none, none, none⟩]
    ∧ recordSessionEnd
        [⟨"s1", "a", 5, none, none, none, none, none⟩] "s2" ⟨1, 1, 0, none⟩ 9
      = [⟨"s1", "a", 5, none, none, none, none, none⟩] := by
  have h := claim_C9_session_row_unique
    [⟨"s1", "a", 5, none, none, none, none, none⟩] "s1" "b" 9 9 ⟨1, 1, 0, none⟩
  have h2 := claim_C9_session_row_unique
    [⟨"s1", "a", 5, none, none, none, none, none⟩] "s2" "b" 9 9 ⟨1, 1, 0, none⟩
  exact ⟨h.1 (by decide), h2.2.1 (by decide)⟩

/-! ### Loop lemmas -/

/-- A tool event is not a session-end event. -/
theorem Event.toolEvent_not_sessionEnd (ev : Event)
    (h : ev.isToolEvent = true) : ev.isSessionEnd = false := by
  cases ev <;> simp_all [Event.isToolEvent, Event.isSessionEnd]

/-- Dispatching one request emits tool events only. -/
theorem dispatchOne_events_tool (agent : Agent) (sid ak : String)
    (tu : ToolUseBlock) :
    ∀ ev ∈ (dispatchOne agent sid ak tu).2.1, ev.isToolEvent = true := by
  unfold dispatchOne
  split
  · simp
  · split <;> simp [Event.isToolEvent]

/-- Dispatching a turn emits tool events only. -/
theorem dispatchTurn_events_tool (agent : Agent) (sid ak : String)
    (tus : List ToolUseBlock) :
    ∀ ev ∈ (dispatchTurn agent sid ak tus).2.1, ev.isToolEvent = true := by
  induction tus with
  | nil => simp [dispatchTurn]
  | cons tu rest ih =>
      intro ev hev
      simp only [dispatchTurn, List.mem_append] at hev
      rcases hev with hev | hev
      · exact dispatchOne_events_tool agent sid ak tu ev hev
      · exact ih ev hev

/-- Every event the loop accumulates beyond its starting events is a tool
event; in particular the loop itself never emits `session_end`. -/
theorem runLoop_events_toolOnly (agent : Agent) (svc : Service)
    (sid ak : String) :
    ∀ (fuel : Nat) (st : LoopState) (fr : Option String),
      (∀ ev ∈ st.events, ev.isToolEvent = true) →
      ∀ ev ∈ (runLoop agent svc sid ak fuel st fr).1.events,
        ev.isToolEvent = true := by
  intro fuel
  induction fuel with
  | zero => intro st fr hst ev hev; exact hst ev hev
  | succ fuel ih =>
      intro st fr hst
      unfold runLoop
      split
      · exact hst
      · dsimp only
        split
        · exact hst
        · split
          · intro ev hev
            simp only [List.mem_append] at hev
            rcases hev with hev | hev
            · exact hst ev hev
            · exact dispatchTurn_events_tool agent sid ak _ ev hev
          · apply ih
            intro ev hev
            simp only [List.mem_append] at hev
            rcases hev with hev | hev
            · exact hst ev hev
            · exact dispatchTurn_events_tool agent sid ak _ ev hev

/-- Fuel sufficiency: with at least `(50 - length) / 2 + 1` fuel units the
loop never runs out of fuel — the source's hard stop at message count 50
bounds the number of iterations, which is the termination argument for the
source's `while` loop. -/
theorem runLoop_fuel_sufficient (agent : Agent) (svc : Service)
    (sid ak : String) :
    ∀ (fuel : Nat) (st : LoopState) (fr : Option String),
      (50 - st.messages.length) / 2 + 1 ≤ fuel →
      (runLoop agent svc sid ak fuel st fr).2.2 ≠ LoopExit.fuelOut := by
  intro fuel
  induction fuel with
  | zero => intro st fr h; omega
  | succ fuel ih =>
      intro st fr h
      unfold runLoop
      split
      · simp
      · dsimp only
        split
        · simp
        · split
          · simp
          · rename_i hlen
            apply ih
            simp only [List.length_append, List.length_cons,
              List.length_nil] at hlen ⊢
            omega

/-- Against a service that always answers with at least one tool request and
never throws, the loop always ends in the forced hard stop. -/
theorem runLoop_forced (agent : Agent) (svc : Service) (sid ak : String)
    (hsvc : ∀ msgs, ∃ bs, svc msgs = Except.ok bs
      ∧ (toolUseBlocksOf bs).isEmpty = false) :
    ∀ (fuel : Nat) (st : LoopState) (fr : Option String),
      (50 - st.messages.length) / 2 + 1 ≤ fuel →
      (runLoop agent svc sid ak fuel st fr).2.2 = LoopExit.forced := by
  intro fuel
  induction fuel with
  | zero => intro st fr h; omega
  | succ fuel ih =>
      intro st fr h
      obtain ⟨bs, hbs, hne⟩ := hsvc st.messages
      unfold runLoop
      split
      · rename_i e he
        rw [hbs] at he
        exact absurd he (by simp)
      · rename_i content hcontent
        rw [hbs] at hcontent
        have hcb : content = bs := by
          injection hcontent with h2
          exact h2.symm
        subst hcb
        dsimp only
        split
        · rename_i hemp
          rw [hne] at hemp
          exact absurd hemp (by simp)
        · split
          · rfl
          · rename_i hlen
            apply ih
            simp only [List.length_append, List.length_cons,
              List.length_nil] at hlen ⊢
            omega

/-- Claim C2: when the reasoning-service call throws during a run of
`executeAgentWithTools`, the function returns a failure result carrying the
error message and the tool names accumulated so far, and no `session_end`
event appears anywhere in the run's trace. -/
theorem claim_C2_service_error_no_session_end (orch : Orchestrator)
    (svc : Service) (agentKey input sessionId : String)
    (pa : String × Agent) (e : String) (st : LoopState) (fr : Option String)
    (hfind : orch.agents.find? (fun p => p.1 == agentKey) = some pa)
    (hrun : runLoop pa.2 svc sessionId agentKey loopFuel
        ⟨[⟨"user", .text input⟩], [], [], []⟩ none
      = (st, fr, LoopExit.svcError e)) :
    let out := (executeAgentWithTools orch svc agentKey input sessionId).1
    out.response.success = false
    ∧ out.response.error = some e
    ∧ out.response.toolsUsed = st.toolsUsed
    ∧ ∀ ev ∈ out.trace, ev.isSessionEnd = false := by
  intro out
  have hevents : ∀ ev ∈ st.events, ev.isToolEvent = true := by
    have h := runLoop_events_toolOnly pa.2 svc sessionId agentKey loopFuel
      ⟨[⟨"user", .text input⟩], [], [], []⟩ none (by intro ev hev; simp at hev)
    rw [hrun] at h
    exact h
  have hout : out =
      { response := ⟨false, none, some e, st.toolsUsed⟩,
        trace := Event.sessionStart sessionId agentKey :: st.events,
        finalContext := none,
        exit := some (LoopExit.svcError e),
        requests := st.requests } := by
    show (executeAgentWithTools orch svc agentKey input sessionId).1 = _
    unfold executeAgentWithTools
    rw [hfind]
    simp only [hrun]
  rw [hout]
  refine ⟨rfl, rfl, rfl, ?_⟩
  intro ev hev
  simp only [List.mem_cons] at hev
  rcases hev with hev | hev
  · rw [hev]; rfl
  · exact Event.toolEvent_not_sessionEnd ev (hevents ev hev)

/-- A service that throws immediately, and a one-agent orchestrator, for the
C2 witness. -/
def svcThrows : Service := fun _ => Except.error "boom"

/-- A trivial agent with a single always-succeeding tool. -/
def okAgent : Agent := ⟨[⟨"t", fun _ => Except.ok "r"⟩]⟩

/-- Orchestrator with the single agent `a`, empty session registry. -/
def orchOne : Orchestrator := ⟨[("a", okAgent)], []⟩

/-- Witness for C2: a service that throws on the first call yields a failure
with the error message, empty `toolsUsed`, and a trace without `session_end`. -/
theorem claim_C2_witness :
    (executeAgentWithTools orchOne svcThrows "a" "hi"
        "s").1.response.success = false
    ∧ (executeAgentWithTools orchOne svcThrows "a" "hi"
        "s").1.response.error = some "boom"
    ∧ (executeAgentWithTools orchOne svcThrows "a" "hi"
        "s").1.response.toolsUsed = []
    ∧ ∀ ev ∈ (executeAgentWithTools orchOne svcThrows "a" "hi" "s").1.trace,
        ev.isSessionEnd = false := by
  have h := claim_C2_service_error_no_session_end orchOne svcThrows "a" "hi"
    "s" ("a", okAgent) "boom" ⟨[⟨"user", .text "hi"⟩], [], [], []⟩ none
    rfl rfl
  exact h

/-- A service that requests the tool `t` on every turn, for the C3 witness. -/
def svcAlwaysTool : Service :=
  fun _ => Except.ok [ContentBlock.toolUse ⟨"1", "t", "x"⟩]

/-- Claim C3: even against a reasoning service that requests a tool on every
turn (and never throws), `executeAgentWithTools` terminates: once the
accumulated message count exceeds 50 the loop stops via the hard stop and the
function returns a success-shaped result. -/
theorem claim_C3_forced_termination (orch : Orchestrator) (svc : Service)
    (agentKey input sessionId : String) (pa : String × Agent)
    (hfind : orch.agents.find? (fun p => p.1 == agentKey) = some pa)
    (hsvc : ∀ msgs, ∃ bs, svc msgs = Except.ok bs
      ∧ (toolUseBlocksOf bs).isEmpty = false) :
    (executeAgentWithTools orch svc agentKey input sessionId).1.response.success
        = true
    ∧ (executeAgentWithTools orch svc agentKey input sessionId).1.exit
        = some LoopExit.forced := by
  have hforced := runLoop_forced pa.2 svc sessionId agentKey hsvc loopFuel
    ⟨[⟨"user", .text input⟩], [], [], []⟩ none (by simp [loopFuel])
  unfold executeAgentWithTools
  rw [hfind]
  simp only []
  rw [show (runLoop pa.2 svc sessionId agentKey loopFuel
      ⟨[⟨"user", MessageContent.text input⟩], [], [], []⟩ none)
    = ((runLoop pa.2 svc sessionId agentKey loopFuel
      ⟨[⟨"user", MessageContent.text input⟩], [], [], []⟩ none).1,
       (runLoop pa.2 svc sessionId agentKey loopFuel
      ⟨[⟨"user", MessageContent.text input⟩], [], [], []⟩ none).2.1,
       LoopExit.forced) from by rw [← hforced]]
  exact ⟨rfl, rfl⟩

/-- Witness for C3: the always-tool service against the one-agent
orchestrator terminates with a success result via the forced stop. -/
theorem claim_C3_witness :
    (executeAgentWithTools orchOne svcAlwaysTool "a" "hi"
        "s").1.response.success = true
    ∧ (executeAgentWithTools orchOne svcAlwaysTool "a" "hi" "s").1.exit
        = some LoopExit.forced := by
  exact claim_C3_forced_termination orchOne svcAlwaysTool "a" "hi" "s"
    ("a", okAgent) rfl (fun msgs => ⟨[ContentBlock.toolUse ⟨"1", "t", "x"⟩],
      rfl, rfl⟩)

/-! ### Concrete scenarios (spec §8, Scenarios B and C) -/

/-- A tool whose implementation always throws. -/
def boomTool : Tool := ⟨"boom", fun _ => Except.error "kaboom"⟩

/-- An agent whose catalog is just the throwing tool. -/
def boomAgent : Agent := ⟨[boomTool]⟩

/-- A service that requests `boom` on the first turn and answers with plain
text `done` on the next (spec §8, Scenario C). -/
def svcBoom : Service := fun msgs =>
  if msgs.length ≤ 1 then Except.ok [ContentBlock.toolUse ⟨"1", "boom", "x"⟩]
  else Except.ok [ContentBlock.text "done"]

/-- Orchestrator for the Scenario C run. -/
def orchBoom : Orchestrator := ⟨[("a", boomAgent)], []⟩

/-- The Scenario C run: one throwing tool call, then completion. -/
def runBoom : RunOut :=
  (executeAgentWithTools orchBoom svcBoom "a" "hi" "s").1

/-- An agent whose only tool is named `t`. -/
def ghostAgent : Agent := ⟨[⟨"t", fun _ => Except.ok "r"⟩]⟩

/-- A service that requests the unknown tool `ghost` on the first turn and
answers with text `done` on the next (spec §8, Scenario B shape). -/
def svcGhost : Service := fun msgs =>
  if msgs.length ≤ 1 then Except.ok [ContentBlock.toolUse ⟨"g1", "ghost", "x"⟩]
  else Except.ok [ContentBlock.text "done"]

/-- Orchestrator for the unknown-tool run. -/
def orchGhost : Orchestrator := ⟨[("a", ghostAgent)], []⟩

/-- The unknown-tool run: one request naming a tool absent from the catalog,
then completion. -/
def runGhost : RunOut :=
  (executeAgentWithTools orchGhost svcGhost "a" "hi" "s").1

/-- Claim C4, evaluated at the failing input: a run in which the tool
implementation threw completes with `toolsUsed = ["boom"]` and a `tool_error`
event, yet the published `session_end` carries `errorCount = 0` (and
`successCount = totalTools = 1`) — orchestrator.ts lines 555-564 hard-code
`errorCount: 0` behind the false comment that errors would have thrown,
while the spec's Scenario C requires `errorCount` of at least one. -/
theorem claim_C4_errorCount_not_reflected :
    runBoom.trace
      = [Event.sessionStart "s" "a",
         Event.toolStart "s" "a" "boom",
         Event.toolError "s" "a" "boom" "kaboom",
         Event.sessionEnd "s" "a" 1 1 0 (some "done")]
    ∧ runBoom.response.success = true
    ∧ runBoom.response.toolsUsed = ["boom"] := by
  decide

/-- Counterexample to claim C5 as stated: in the unknown-tool run the request
naming `ghost` is dispatched (it produces the synthetic error result fed back
to the service) and the run completes successfully, yet `toolsUsed` does not
contain `ghost` — orchestrator.ts line 471 pushes the name only after the
catalog lookup succeeded. -/
theorem claim_C5_counterexample :
    runGhost.response.success = true
    ∧ runGhost.requests.map (fun tu => tu.name) = ["ghost"]
    ∧ (⟨"user", MessageContent.results
          [⟨"g1", "Error: Tool ghost not found", true⟩]⟩ : Message)
        ∈ (runGhost.finalContext.map (fun c => c.messages)).getD []
    ∧ "ghost" ∉ runGhost.response.toolsUsed := by
  decide

/-- Counterexample to claim C6 as stated: in the unknown-tool run a request
is processed (its synthetic error result appears in the conversation), yet
the trace contains no `tool_start` and no terminal tool event for it — the
`if (!tool)` branch at orchestrator.ts lines 462-469 returns before any event
is emitted. -/
theorem claim_C6_counterexample :
    runGhost.requests.map (fun tu => tu.name) = ["ghost"]
    ∧ runGhost.trace
      = [Event.sessionStart "s" "a",
         Event.sessionEnd "s" "a" 0 0 0 (some "done")] := by
  decide

/-- Counterexample to claim C7 as stated: after a successful run the
orchestrator's session registry is unchanged (the loop context is local,
orchestrator.ts lines 406-411, and is never stored), so a subsequent lookup
of the session creates a fresh empty context instead of observing the loop's
four messages. -/
theorem claim_C7_counterexample :
    (executeAgentWithTools orchGhost svcGhost "a" "hi" "s").2 = orchGhost
    ∧ (getConversationContext
        ((executeAgentWithTools orchGhost svcGhost "a" "hi" "s").2)
        "s").1.messages = []
    ∧ (runGhost.finalContext.map (fun c => c.messages.length)).getD 0 = 4 := by
  refine ⟨rfl, by decide, by decide⟩

/-! ### Invariant: toolsUsed versus dispatched requests -/

/-- `toolsUsed` invariant carried through the loop: every dispatched request
whose tool exists in the catalog has its name recorded, and every recorded
name belongs to a catalog tool. -/
def UsedInv (tools : List Tool) (st : LoopState) : Prop :=
  (∀ tu ∈ st.requests,
    (∃ t ∈ tools, t.name = tu.name) → tu.name ∈ st.toolsUsed)
  ∧ ∀ n ∈ st.toolsUsed, ∃ t ∈ tools, t.name = n

/-- Dispatching one request records the tool name exactly when the catalog
lookup succeeds. -/
theorem dispatchOne_used (agent : Agent) (sid ak : String)
    (tu : ToolUseBlock) :
    ((∃ t ∈ agent.tools, t.name = tu.name) →
      tu.name ∈ (dispatchOne agent sid ak tu).2.2)
    ∧ ∀ n ∈ (dispatchOne agent sid ak tu).2.2,
        ∃ t ∈ agent.tools, t.name = n := by
  cases hfind : agent.tools.find? (fun t => t.name == tu.name) with
  | none =>
      constructor
      · rintro ⟨t, ht, hname⟩
        have := List.find?_eq_none.mp hfind t ht
        simp [hname] at this
      · simp [dispatchOne, hfind]
  | some tool =>
      have hmem : tool ∈ agent.tools := List.mem_of_find?_eq_some hfind
      have hname : tool.name = tu.name := by
        have := List.find?_some hfind
        simpa using this
      cases hex : tool.execute tu.input with
      | ok r =>
          constructor
          · intro hex2
            simp [dispatchOne, hfind, hex, hname]
          · intro n hn
            simp only [dispatchOne, hfind, hex, List.mem_singleton] at hn
            exact ⟨tool, hmem, hn.symm⟩
      | error msg =>
          constructor
          · intro hex2
            simp [dispatchOne, hfind, hex, hname]
          · intro n hn
            simp only [dispatchOne, hfind, hex, List.mem_singleton] at hn
            exact ⟨tool, hmem, hn.symm⟩

/-- Dispatching a turn records exactly the catalog-resolvable tool names. -/
theorem dispatchTurn_used (agent : Agent) (sid ak : String)
    (tus : List ToolUseBlock) :
    (∀ tu ∈ tus, (∃ t ∈ agent.tools, t.name = tu.name) →
      tu.name ∈ (dispatchTurn agent sid ak tus).2.2)
    ∧ ∀ n ∈ (dispatchTurn agent sid ak tus).2.2,
        ∃ t ∈ agent.tools, t.name = n := by
  induction tus with
  | nil => simp [dispatchTurn]
  | cons tu rest ih =>
      constructor
      · intro x hx hex
        simp only [dispatchTurn, List.mem_cons] at hx
        simp only [dispatchTurn, List.mem_append]
        rcases hx with rfl | hx
        · exact Or.inl ((dispatchOne_used agent sid ak x).1 hex)
        · exact Or.inr (ih.1 x hx hex)
      · intro n hn
        simp only [dispatchTurn, List.mem_append] at hn
        rcases hn with hn | hn
        · exact (dispatchOne_used agent sid ak tu).2 n hn
        · exact ih.2 n hn

/-- One tool-dispatching iteration preserves the `toolsUsed` invariant. -/
theorem UsedInv_step (agent : Agent) (sid ak : String) (st : LoopState)
    (tus : List ToolUseBlock) (msgs : List Message) (evs : List Event)
    (h : UsedInv agent.tools st) :
    UsedInv agent.tools
      ⟨msgs, st.toolsUsed ++ (dispatchTurn agent sid ak tus).2.2,
       evs, st.requests ++ tus⟩ := by
  constructor
  · intro tu htu hex
    simp only [List.mem_append] at htu ⊢
    rcases htu with htu | htu
    · exact Or.inl (h.1 tu htu hex)
    · exact Or.inr ((dispatchTurn_used agent sid ak tus).1 tu htu hex)
  · intro n hn
    simp only [List.mem_append] at hn
    rcases hn with hn | hn
    · exact h.2 n hn
    · exact (dispatchTurn_used agent sid ak tus).2 n hn

/-- The loop preserves the `toolsUsed` invariant. -/
theorem runLoop_used_inv (agent : Agent) (svc : Service) (sid ak : String) :
    ∀ (fuel : Nat) (st : LoopState) (fr : Option String),
      UsedInv agent.tools st →
      UsedInv agent.tools (runLoop agent svc sid ak fuel st fr).1 := by
  intro fuel
  induction fuel with
  | zero => intro st fr h; exact h
  | succ fuel ih =>
      intro st fr h
      unfold runLoop
      split
      · exact h
      · dsimp only
        split
        · exact ⟨h.1, h.2⟩
        · split
          · exact UsedInv_step agent sid ak st _ _ _ h
          · exact ih _ _ (UsedInv_step agent sid ak st _ _ _ h)

/-- Claim C5, amended: for every run of `executeAgentWithTools`,
`toolsUsed` contains the name of every dispatched request whose tool exists
in the agent's catalog — including requests whose implementation threw — and
nothing else: requests naming a tool absent from the catalog are answered
with a synthetic error result but never recorded in `toolsUsed`. -/
theorem claim_C5_amended_toolsUsed (orch : Orchestrator) (svc : Service)
    (agentKey input sessionId : String) (pa : String × Agent)
    (hfind : orch.agents.find? (fun p => p.1 == agentKey) = some pa) :
    (∀ tu ∈ (executeAgentWithTools orch svc agentKey input
        sessionId).1.requests,
      (∃ t ∈ pa.2.tools, t.name = tu.name) →
        tu.name ∈ (executeAgentWithTools orch svc agentKey input
          sessionId).1.response.toolsUsed)
    ∧ ∀ n ∈ (executeAgentWithTools orch svc agentKey input
        sessionId).1.response.toolsUsed,
        ∃ t ∈ pa.2.tools, t.name = n := by
  rcases hrl : runLoop pa.2 svc sessionId agentKey loopFuel
      ⟨[⟨"user", MessageContent.text input⟩], [], [], []⟩ none
    with ⟨st, fr, tag⟩
  have hinv : UsedInv pa.2.tools st := by
    have h := runLoop_used_inv pa.2 svc sessionId agentKey loopFuel
      ⟨[⟨"user", MessageContent.text input⟩], [], [], []⟩ none
      ⟨fun tu htu => by simp at htu, fun n hn => by simp at hn⟩
    rw [hrl] at h
    exact h
  have hfields :
      (executeAgentWithTools orch svc agentKey input
        sessionId).1.requests = st.requests
      ∧ (executeAgentWithTools orch svc agentKey input
        sessionId).1.response.toolsUsed = st.toolsUsed := by
    unfold executeAgentWithTools
    rw [hfind]
    dsimp only
    rw [hrl]
    cases tag <;> exact ⟨rfl, rfl⟩
  rw [hfields.1, hfields.2]
  exact hinv

/-- Witness for the amended C5 at the Scenario C run: the throwing tool's
name is recorded in `toolsUsed`. -/
theorem claim_C5_witness : "boom" ∈ runBoom.response.toolsUsed := by
  have h := claim_C5_amended_toolsUsed orchBoom svcBoom "a" "hi" "s"
    ("a", boomAgent) rfl
  exact h.1 ⟨"1", "boom", "x"⟩ (by decide)
    ⟨boomTool, List.mem_singleton.mpr rfl, rfl⟩

/-- Claim C6, amended: the run's first event is `session_start` (so it
precedes every tool event), and for every request whose tool name resolves
in the catalog, dispatch emits exactly `tool_start` followed by exactly one
of `tool_complete` or `tool_error`; a request naming a tool absent from the
catalog emits no events at all (see the counterexample). -/
theorem claim_C6_amended_event_order (orch : Orchestrator) (svc : Service)
    (agentKey input sessionId : String) (pa : String × Agent)
    (hfind : orch.agents.find? (fun p => p.1 == agentKey) = some pa) :
    (executeAgentWithTools orch svc agentKey input sessionId).1.trace.head?
      = some (Event.sessionStart sessionId agentKey)
    ∧ ∀ (tu : ToolUseBlock) (t : Tool),
        pa.2.tools.find? (fun x => x.name == tu.name) = some t →
        ∃ fin, (dispatchOne pa.2 sessionId agentKey tu).2.1
            = [Event.toolStart sessionId agentKey t.name, fin]
          ∧ (fin = Event.toolComplete sessionId agentKey t.name
            ∨ ∃ msg, fin = Event.toolError sessionId agentKey t.name msg) := by
  constructor
  · rcases hrl : runLoop pa.2 svc sessionId agentKey loopFuel
        ⟨[⟨"user", MessageContent.text input⟩], [], [], []⟩ none
      with ⟨st, fr, tag⟩
    unfold executeAgentWithTools
    rw [hfind]
    dsimp only
    rw [hrl]
    cases tag <;> rfl
  · intro tu t ht
    cases hex : t.execute tu.input with
    | ok r =>
        refine ⟨Event.toolComplete sessionId agentKey t.name, ?_, Or.inl rfl⟩
        simp [dispatchOne, ht, hex]
    | error msg =>
        refine ⟨Event.toolError sessionId agentKey t.name msg, ?_,
          Or.inr ⟨msg, rfl⟩⟩
        simp [dispatchOne, ht, hex]

/-- Witness for the amended C6 at the Scenario C run: the trace starts with
`session_start`. -/
theorem claim_C6_witness :
    (executeAgentWithTools orchBoom svcBoom "a" "hi" "s").1.trace.head?
      = some (Event.sessionStart "s" "a") :=
  (claim_C6_amended_event_order orchBoom svcBoom "a" "hi" "s"
    ("a", boomAgent) rfl).1

/-- Any context trimmed with the loop's `maxHistory` of 20 holds at most 20
messages. -/
theorem trimConversationHistory_le (msgs : List Message) :
    (trimConversationHistory ⟨msgs, some 20⟩).messages.length ≤ 20 := by
  have h20 : trimConversationHistory ⟨msgs, some 20⟩
      = if msgs.length > 20 then ⟨msgs.drop (msgs.length - 20), some 20⟩
        else ⟨msgs, some 20⟩ := rfl
  rw [h20]
  split
  · simp only [List.length_drop]
    omega
  · rename_i h
    simp only [not_lt] at h
    simpa using h

/-- Claim C7, amended: on successful termination the loop's conversation is
trimmed to the `maxHistory` bound of 20, but it stays local to the
invocation — `executeAgentWithTools` never writes to the orchestrator's
session registry, so a subsequent lookup of the session does not observe the
loop's messages (for a fresh session it sees an empty context). -/
theorem claim_C7_amended_registry_untouched (orch : Orchestrator)
    (svc : Service) (agentKey input sessionId : String) :
    (executeAgentWithTools orch svc agentKey input sessionId).2 = orch
    ∧ ∀ c, (executeAgentWithTools orch svc agentKey input
        sessionId).1.finalContext = some c → c.messages.length ≤ 20 := by
  constructor
  · unfold executeAgentWithTools
    split
    · rfl
    · dsimp only
      split <;> rfl
  · intro c hc
    unfold executeAgentWithTools at hc
    cases hfind : orch.agents.find? (fun p => p.1 == agentKey) with
    | none =>
        rw [hfind] at hc
        simp at hc
    | some pa =>
        rw [hfind] at hc
        dsimp only at hc
        rcases hrl : runLoop pa.2 svc sessionId agentKey loopFuel
            ⟨[⟨"user", MessageContent.text input⟩], [], [], []⟩ none
          with ⟨st, fr, tag⟩
        rw [hrl] at hc
        cases tag with
        | completed =>
            dsimp only at hc
            have : trimConversationHistory ⟨st.messages, some 20⟩ = c := by
              injection hc
            rw [← this]
            exact trimConversationHistory_le st.messages
        | forced =>
            dsimp only at hc
            have : trimConversationHistory ⟨st.messages, some 20⟩ = c := by
              injection hc
            rw [← this]
            exact trimConversationHistory_le st.messages
        | svcError e => simp at hc
        | fuelOut => simp at hc

/-- Witness for the amended C7 at the Scenario C run: the registry is
unchanged and the loop's final local context respects the trim bound. -/
theorem claim_C7_witness :
    (executeAgentWithTools orchBoom svcBoom "a" "hi" "s").2 = orchBoom
    ∧ (⟨[⟨"user", MessageContent.text "hi"⟩,
         ⟨"assistant", MessageContent.blocks
           [ContentBlock.toolUse ⟨"1", "boom", "x"⟩]⟩,
         ⟨"user", MessageContent.results
           [⟨"1", "Error: kaboom", true⟩]⟩,
         ⟨"assistant", MessageContent.blocks [ContentBlock.text "done"]⟩],
        some 20⟩ : ConversationContext).messages.length ≤ 20 := by
  have h := claim_C7_amended_registry_untouched orchBoom svcBoom "a" "hi" "s"
  exact ⟨h.1, h.2 _ (by decide)⟩

end MMAgent
